import Mathlib

/-!
Verification of the nginx-manager repository: a shallow embedding of the
template renderer (`src/nginx/config_builder.py`, `src/nginx/templates.py`),
the activation/deactivation engine and the site registry
(`src/nginx/manager.py`), together with theorems settling the spec claims.

Python strings are modelled as Lean `String`/`List Char`; the character
classes of Python regular expressions (`\w`, `\s`, `\d`) are modelled
faithfully for code points below 0x100, the range every theorem below
evaluates.
-/

/-! ### Basic string machinery (substring search, joining) -/

/-- `headMatch p s` is true when `p` occurs at the very start of `s`
(list-of-characters view of strings). -/
def headMatch : List Char → List Char → Bool
  | [], _ => true
  | _ :: _, [] => false
  | p :: ps, c :: cs => p = c && headMatch ps cs

/-- `subStr p s` is true when `p` occurs contiguously anywhere in `s`;
this models Python's `pat in s` substring test. -/
def subStr (pat : List Char) : List Char → Bool
  | [] => headMatch pat []
  | c :: rest => headMatch pat (c :: rest) || subStr pat rest

/-- String-level wrapper of `subStr`: `containsS pat s` models `pat in s`. -/
def containsS (pat s : String) : Bool := subStr pat.data s.data

/-- `charIn c p` is true when the character `c` occurs in `p`. -/
def charIn (c : Char) (p : List Char) : Bool := p.any (fun x => x = c)

/-- `joinSep sep l` models Python's `sep.join(l)`. -/
def joinSep (sep : String) : List String → String
  | [] => ""
  | [s] => s
  | s :: rest => s ++ sep ++ joinSep sep rest

/-! ### Python character classes, modelled for code points below 0x100 -/

/-- Python regex `\s` (Unicode mode) restricted to code points below 0x100:
the ASCII whitespace characters, the file/group/record/unit separators,
NEL (0x85) and NBSP (0xA0), exactly the characters of that range for which
`str.isspace()` holds. -/
def pyWs (c : Char) : Bool :=
  c = ' ' || c = '\t' || c = '\n' || c = '\r' || c.val = 0x0b || c.val = 0x0c ||
  c.val = 0x1c || c.val = 0x1d || c.val = 0x1e || c.val = 0x1f ||
  c.val = 0x85 || c.val = 0xa0

/-- Python regex `\d` (decimal digits, category Nd) restricted to code points
below 0x100: exactly the ASCII digits. -/
def pyDigit (c : Char) : Bool := '0' ≤ c && c ≤ '9'

/-- The non-ASCII alphanumeric characters of the Latin-1 supplement, i.e. the
code points in [0x80, 0xFF] for which Python's `str.isalnum()` holds: the
letters ª µ º, À–Ö, Ø–ö, ø–ÿ and the numeric characters ² ³ ¹ ¼ ½ ¾. -/
def latin1AlphaNum (c : Char) : Bool :=
  c.val = 0xAA || c.val = 0xB5 || c.val = 0xBA ||
  (0xC0 ≤ c.val && c.val ≤ 0xD6) || (0xD8 ≤ c.val && c.val ≤ 0xF6) ||
  (0xF8 ≤ c.val && c.val ≤ 0xFF) ||
  c.val = 0xB2 || c.val = 0xB3 || c.val = 0xB9 ||
  c.val = 0xBC || c.val = 0xBD || c.val = 0xBE

/-- Python regex `\w` (Unicode mode) restricted to code points below 0x100:
alphanumeric characters (per `str.isalnum()`) and the underscore. -/
def pyWordChar (c : Char) : Bool :=
  ('A' ≤ c && c ≤ 'Z') || ('a' ≤ c && c ≤ 'z') || ('0' ≤ c && c ≤ '9') ||
  c = '_' || latin1AlphaNum c

/-! ### Domain sanitisation (`NginxManager._sanitize_domain`) -/

/-- `NginxManager._sanitize_domain`: `re.sub(r'[^\w.-]', '_', domain)` — every
character that is not a Python word character, a dot or a hyphen is replaced
by an underscore. -/
def sanitize_domain (s : String) : String :=
  String.mk (s.data.map (fun c =>
    if pyWordChar c || c = '.' || c = '-' then c else '_'))

/-- The filename under which a domain's configuration is stored in both the
available and the enabled directory (`f"{safe_domain}.conf"`). -/
def confName (domain : String) : String := sanitize_domain domain ++ ".conf"

/-- The claim's character class `[A-Za-z0-9._-]`, transcribed from the spec
sentence "replace any character outside `[A-Za-z0-9._-]` with `_`". -/
def specKeep (c : Char) : Bool :=
  ('A' ≤ c && c ≤ 'Z') || ('a' ≤ c && c ≤ 'z') || ('0' ≤ c && c ≤ '9') ||
  c = '.' || c = '_' || c = '-'

/-- Modelled from the spec's words (for comparison with `sanitize_domain`):
the sanitisation the claim describes, replacing every character outside
`[A-Za-z0-9._-]` by `_`. -/
def specSanitize (s : String) : String :=
  String.mk (s.data.map (fun c => if specKeep c then c else '_'))

/-! ### Templates (`src/nginx/templates.py`)

Each Python format-string template becomes a Lean function of its
placeholders; literal text is transcribed exactly (the `{{`/`}}` escapes of
the Python source denote literal braces). -/

/-- `LOG_FORMAT_MAIN`. -/
def log_format_main : String :=
  "# Log format definition\nlog_format main \x27$remote_addr - $remote_user [$time_local] \"$request\" \x27\n                \x27$status $body_bytes_sent \"$http_referer\" \x27\n                \x27\"$http_user_agent\" \"$http_x_forwarded_for\"\x27;\n"

/-- `SERVER_BLOCK_TEMPLATE.format(...)` with its eight placeholders. -/
def server_block_fmt (port domain static_directives log_config security_headers
    rate_limiting locations ssl_config : String) : String :=
  "server \x7b\n    listen " ++ port ++ ";\n    server_name " ++ domain ++
  ";\n    \n" ++ static_directives ++ "\n" ++ log_config ++
  "\n    \n    # Security settings\n" ++ security_headers ++
  "\n    \n    # Rate limiting (requires limit_req_zone in http context of nginx.conf)\n" ++
  rate_limiting ++ "\n    \n" ++ locations ++ "\n\n" ++ ssl_config ++ "\n\x7d"

/-- The literal text of `REDIRECT_SERVER_BLOCK` before the `{domain}`
placeholder. -/
def redirect_pre : String := "server \x7b\n    listen 80;\n    server_name "

/-- The literal text of `REDIRECT_SERVER_BLOCK` after the `{domain}`
placeholder. -/
def redirect_suf : String :=
  ";\n    \n    # Redirect all HTTP traffic to HTTPS\n    return 301 https://$host$request_uri;\n\x7d\n"

/-- `REDIRECT_SERVER_BLOCK.format(domain=domain)`. -/
def redirect_server_block (domain : String) : String :=
  redirect_pre ++ domain ++ redirect_suf

/-- `PROXY_LOCATION_BLOCK.format(path=path, proxy_pass=proxy_pass)`. -/
def proxy_location_block (path proxy_pass : String) : String :=
  "location " ++ path ++ " \x7b\n    proxy_pass " ++ proxy_pass ++
  ";\n    \n    # Proxy headers\n    proxy_set_header Host $host;\n    proxy_set_header X-Real-IP $remote_addr;\n    proxy_set_header X-Forwarded-For $proxy_add_x_forwarded_for;\n    proxy_set_header X-Forwarded-Proto $scheme;\n    \n    # WebSocket support\n    proxy_set_header Upgrade $http_upgrade;\n    proxy_set_header Connection \"upgrade\";\n    \n    # Proxy optimizations\n    proxy_buffers 16 16k;\n    proxy_buffer_size 16k;\n    proxy_http_version 1.1;\n    proxy_redirect off;\n    \n    # Timeouts\n    proxy_connect_timeout 60s;\n    proxy_send_timeout 60s;\n    proxy_read_timeout 60s;\n\x7d"

/-- `STATIC_SERVER_DIRECTIVES.format(root=root, index=index)` (the Python
source's `\.` sequences are literal backslash-dot). -/
def static_server_directives (root index : String) : String :=
  "    # Static site configuration\n    root " ++ root ++ ";\n    index " ++
  index ++
  ";\n    \n    # Serve static files efficiently\n    location ~* \\.(jpg|jpeg|png|gif|ico|css|js)$ \x7b\n        expires 30d;\n        add_header Cache-Control \"public, no-transform\";\n    \x7d\n    \n    # Deny access to hidden files\n    location ~ /\\. \x7b\n        deny all;\n    \x7d"

/-- `SECURITY_HEADERS`. -/
def security_headers_list : List String :=
  ["# Security headers",
   "add_header X-Content-Type-Options nosniff;",
   "add_header X-Frame-Options SAMEORIGIN;",
   "add_header X-XSS-Protection \"1; mode=block\";",
   "add_header Referrer-Policy no-referrer-when-downgrade;",
   "add_header Content-Security-Policy \"default-src \x27self\x27 https: data: \x27unsafe-inline\x27 \x27unsafe-eval\x27;\";",
   "add_header Permissions-Policy \"camera=(), microphone=(), geolocation=()\";"]

/-- `SSL_CONFIG_BLOCK`, with the `{domain}` templating of
`_build_ssl_config`'s `template.format(domain=domain)` already applied to
each value. -/
def ssl_config_block (domain : String) : List (String × String) :=
  [("listen", "443 ssl http2"),
   ("ssl_certificate", "/etc/letsencrypt/live/" ++ domain ++ "/fullchain.pem"),
   ("ssl_certificate_key", "/etc/letsencrypt/live/" ++ domain ++ "/privkey.pem"),
   ("ssl_session_timeout", "1d"),
   ("ssl_session_cache", "shared:SSL:10m"),
   ("ssl_session_tickets", "off"),
   ("ssl_protocols", "TLSv1.2 TLSv1.3"),
   ("ssl_ciphers", "ECDHE-ECDSA-AES128-GCM-SHA256:ECDHE-RSA-AES128-GCM-SHA256:ECDHE-ECDSA-AES256-GCM-SHA384:ECDHE-RSA-AES256-GCM-SHA384:ECDHE-ECDSA-CHACHA20-POLY1305:ECDHE-RSA-CHACHA20-POLY1305:DHE-RSA-AES128-GCM-SHA256:DHE-RSA-AES256-GCM-SHA384"),
   ("ssl_prefer_server_ciphers", "off"),
   ("include", "/etc/letsencrypt/options-ssl-nginx.conf"),
   ("ssl_dhparam", "/etc/letsencrypt/ssl-dhparams.pem"),
   ("ssl_stapling", "on"),
   ("ssl_stapling_verify", "on"),
   ("resolver", "8.8.8.8 8.8.4.4 valid=60s"),
   ("resolver_timeout", "2s")]

/-- `RATE_LIMITING`. -/
def rate_limiting_list : List String :=
  ["# Rate limiting", "limit_req zone=one burst=10 nodelay;"]

/-! ### Config builder (`src/nginx/config_builder.py`)

`Path(value).exists()` inside `_build_ssl_config` is the one effectful step
of rendering; it is modelled by an injected file-existence predicate
`ex : String → Bool`. -/

/-- `cfg['mode']`. -/
inductive Mode where
  | proxy
  | static
deriving DecidableEq

/-- The configuration dictionary `cfg` assembled by the CLI: keys `mode`,
`listen`, and — depending on the mode — `path`/`proxy_pass` or
`root`/`index` (unused fields of the inactive mode are simply never read,
like the absent dictionary keys in the source). -/
structure SiteCfg where
  mode : Mode
  listen : String
  path : String
  proxy_pass : String
  root : String
  index : String

/-- One entry of the `locations` list: `{"path": ..., "directives": [...]}`. -/
structure Location where
  path : String
  directives : List (String × String)

/-- `NginxConfigBuilder._build_proxy_location`. -/
def build_proxy_location (path proxy_pass : String) : String :=
  proxy_location_block path proxy_pass

/-- `NginxConfigBuilder._build_custom_location`: a `location` line, one
indented `directive value;` line per pair, a closing brace, joined by
newlines. -/
def build_custom_location (path : String) (directives : List (String × String)) : String :=
  joinSep "\n"
    (("location " ++ path ++ " \x7b") ::
      (directives.map (fun dv => "    " ++ dv.1 ++ " " ++ dv.2 ++ ";") ++ ["\x7d"]))

/-- `NginxConfigBuilder._build_log_config`. -/
def build_log_config (domain : String) : String :=
  "\n    # Logging configuration\n    access_log /var/log/nginx/" ++ domain ++
  "/access.log main buffer=16k;\n    error_log /var/log/nginx/" ++ domain ++
  "/error.log warn;\n    "

/-- `NginxConfigBuilder._build_security_config`. -/
def build_security_config : String := joinSep "\n    " security_headers_list

/-- The lines of `NginxConfigBuilder._build_ssl_config`: each
`(directive, value)` of the SSL block renders as `directive value;`, except
that an `include` or `ssl_dhparam` entry whose referenced file does not
exist is skipped. -/
def ssl_lines (ex : String → Bool) (domain : String) : List String :=
  (ssl_config_block domain).filterMap (fun dv =>
    if (dv.1 = "include" || dv.1 = "ssl_dhparam") && !(ex dv.2) then none
    else some (dv.1 ++ " " ++ dv.2 ++ ";"))

/-- `NginxConfigBuilder._build_ssl_config`. -/
def build_ssl_config (ex : String → Bool) (domain : String) : String :=
  joinSep "\n    " (ssl_lines ex domain)

/-- The `static_directives` server parameter of `NginxConfigBuilder.build`:
the formatted `STATIC_SERVER_DIRECTIVES` in static mode, `""` in proxy
mode. -/
def static_directives (cfg : SiteCfg) : String :=
  match cfg.mode with
  | .static => static_server_directives cfg.root cfg.index
  | .proxy => ""

/-- The `location_blocks` list of `NginxConfigBuilder.build`: the built-in
proxy location first (proxy mode only), then one custom block per entry of
`locations`, in input order. -/
def location_blocks (cfg : SiteCfg) (locations : List Location) : List String :=
  (match cfg.mode with
   | .proxy => [build_proxy_location cfg.path cfg.proxy_pass]
   | .static => []) ++
  locations.map (fun loc => build_custom_location loc.path loc.directives)

/-- `"\n    ".join(self.rate_limiting)`. -/
def rate_limiting_joined : String := joinSep "\n    " rate_limiting_list

/-- `NginxConfigBuilder.build`. -/
def build (ex : String → Bool) (domain : String) (cfg : SiteCfg)
    (locations : List Location) (ssl redirect : Bool) : String :=
  if redirect then redirect_server_block domain
  else
    log_format_main ++ "\n" ++
      server_block_fmt cfg.listen domain (static_directives cfg)
        (build_log_config domain) build_security_config rate_limiting_joined
        (joinSep "\n\n" (location_blocks cfg locations))
        (if ssl then build_ssl_config ex domain else "")

/-! ### Filesystem model for `NginxManager` (`src/nginx/manager.py`)

The pieces of the filesystem the engine touches: the available directory
(regular files, name ↦ text), the enabled directory (regular files or
symbolic links, name ↦ entry) and the per-site log directories.  A symbolic
link's target is either the available artifact of some name (the links the
engine itself creates, relative or absolute — both resolve to the same
artifact) or some unrelated path that either exists or not.

`Path.exists()` follows symbolic links (a link whose target is missing does
not "exist"), while `os.symlink` fails whenever the link *name* is present,
followed or not; both notions are modelled separately.  External commands
(`nginx -t`, `nginx -s reload`, the `ln -sf` fallback) and environmental
failures of `os.symlink` are oracle booleans.  `ensure_directories` only
creates directories, which this model keeps implicit, so it is modelled as
always succeeding; `run_command` never raises (it catches every exception),
so the `except` fallback at the end of `write_and_enable` is unreachable
and has no model counterpart. -/

/-- Where a symbolic link in the enabled directory points. -/
inductive LinkTarget where
  | toAvail (name : String)
  | external (present : Bool)
deriving DecidableEq

/-- A directory entry in the enabled directory. -/
inductive Entry where
  | regular (content : String)
  | symlink (target : LinkTarget)
deriving DecidableEq

/-- The filesystem state seen by the engine. -/
structure FS where
  avail : String → Option String
  enabled : String → Option Entry
  logdirs : String → Bool

/-- Point update of a finite map. -/
def upd {α : Type} (f : String → Option α) (k : String) (v : Option α) :
    String → Option α :=
  fun x => if x = k then v else f x

/-- Point update of the log-directory set (`mkdir(exist_ok=True)`). -/
def updB (f : String → Bool) (k : String) : String → Bool :=
  fun x => if x = k then true else f x

/-- Whether a link target resolves to an existing file. -/
def targetExists (st : FS) : LinkTarget → Bool
  | .toAvail n => (st.avail n).isSome
  | .external present => present

/-- `Path.exists()` on an enabled-directory path: follows symbolic links, so
a link with a missing target does not exist. -/
def enabledExists (st : FS) (name : String) : Bool :=
  match st.enabled name with
  | none => false
  | some (.regular _) => true
  | some (.symlink t) => targetExists st t

/-- Outcomes of the external world during one `write_and_enable` call:
whether `os.symlink` (relative form, then absolute form) succeeds when the
link name is free, whether the `ln -sf` fallback command succeeds, whether
`nginx -t` and `nginx -s reload` succeed, and how a raw `readlink` result
resolves against the current working directory (used by the dead
broken-symlink branch of `delete_config`). -/
structure Oracle where
  relOk : Bool
  absOk : Bool
  lnOk : Bool
  testOk : Bool
  reloadOk : Bool
  cwdResolves : LinkTarget → Bool

/-- The distinct return points of `NginxManager.write_and_enable`. -/
inductive AResult where
  | ok
  | lnFailed
  | destMissing
  | linkMissing
  | brokenTarget
  | validationFailed
  | reloadFailed
deriving DecidableEq

/-- The distinct return points of `NginxManager.delete_config`. -/
inductive DResult where
  | ok
  | notFound
  | testFailed
  | reloadFailed
deriving DecidableEq

/-- Lines 79–82: create the per-site log directory and write the rendered
text (plus trailing newline) to the available artifact, overwriting. -/
def postWrite (st : FS) (domain conf : String) : FS :=
  { st with
    logdirs := updB st.logdirs (sanitize_domain domain),
    avail := upd st.avail (confName domain) (some (conf ++ "\n")) }

/-- Lines 87–94: if the enabled path exists (following links), unlink it
when it is a symlink, otherwise move the regular file to
`<name>.bak` (`link.with_suffix('.conf.bak')`). -/
def removeEnabledEntry (st : FS) (name : String) : FS :=
  if enabledExists st name then
    match st.enabled name with
    | some (.symlink _) => { st with enabled := upd st.enabled name none }
    | some (.regular c) =>
        { st with
          enabled := upd (upd st.enabled (name ++ ".bak") (some (.regular c))) name none }
    | none => st
  else st

/-- Lines 100–120: the three-stage symlink creation.  `os.symlink` (relative,
then absolute) raises when the link name is occupied — which after
lines 87–94 can only be a broken symlink — or on environmental failure;
`ln -sf` replaces whatever is there.  `none` means all three failed. -/
def tryCreateLink (o : Oracle) (st : FS) (name : String) : Option FS :=
  let created : FS :=
    { st with enabled := upd st.enabled name (some (.symlink (.toAvail name))) }
  if (st.enabled name).isNone && o.relOk then some created
  else if (st.enabled name).isNone && o.absOk then some created
  else if o.lnOk then some created
  else none

/-- `if dest.exists(): dest.unlink()` on the available artifact. -/
def unlinkDestIfE (st : FS) (name : String) : FS :=
  if (st.avail name).isSome then { st with avail := upd st.avail name none }
  else st

/-- `NginxManager.write_and_enable(domain, full_conf)`. -/
def write_and_enable (o : Oracle) (st : FS) (domain conf : String) :
    AResult × FS :=
  let name := confName domain
  let st3 := removeEnabledEntry (postWrite st domain conf) name
  if (st3.avail name).isNone then (.destMissing, st3)
  else
    match tryCreateLink o st3 name with
    | none => (.lnFailed, unlinkDestIfE st3 name)
    | some st4 =>
      if enabledExists st4 name then
        if targetExists st4 (.toAvail name) then
          if o.testOk then
            if o.reloadOk then (.ok, st4) else (.reloadFailed, st4)
          else
            let stA :=
              if enabledExists st4 name then
                { st4 with enabled := upd st4.enabled name none }
              else st4
            (.validationFailed, unlinkDestIfE stA name)
        else
          (.brokenTarget,
            unlinkDestIfE { st4 with enabled := upd st4.enabled name none } name)
      else (.linkMissing, unlinkDestIfE st4 name)

/-- `NginxManager.delete_config(domain)`.  Note that every `exists()` test
follows symbolic links (so a broken enabled link neither counts at line 166
nor is unlinked at line 170), and that the broken-symlink branch of
lines 178–182 re-tests `enabled_f.exists()` *after* the earlier unlink. -/
def delete_config (o : Oracle) (st : FS) (domain : String) : DResult × FS :=
  let name := confName domain
  if !(st.avail name).isSome && !enabledExists st name then (.notFound, st)
  else
    let st1 :=
      if enabledExists st name then { st with enabled := upd st.enabled name none }
      else st
    let st2 :=
      if (st1.avail name).isSome then { st1 with avail := upd st1.avail name none }
      else st1
    let st3 :=
      match st2.enabled name with
      | some (.symlink t) =>
          if targetExists st2 t then
            if !(o.cwdResolves t) then
              { st2 with enabled := upd st2.enabled name none }
            else st2
          else st2
      | _ => st2
    if !o.testOk then (.testFailed, st3)
    else if !o.reloadOk then (.reloadFailed, st3)
    else (.ok, st3)

/-! ### Site registry (`NginxManager.list_configs`)

`list_configs` globs `*.conf` in the available directory (sorted by name),
reads each file and extracts summary fields with `re.search` and substring
tests.  The model takes the glob result as a list of `(filename, text)`
pairs and embeds the two regular expressions as explicit scanners. -/

/-- Index of the first character satisfying `p`. -/
def firstIdx (p : Char → Bool) : List Char → Option Nat
  | [] => none
  | c :: cs => if p c then some 0 else (firstIdx p cs).map (· + 1)

/-- One attempted match of `re.search(r"server_name\s+([^;]+);", ...)` at the
head of `s`: the literal, one-or-more whitespace characters, a nonempty
greedy group of non-semicolon characters, then `;`.  The group starts after
`min m (q-1)` characters, where `m` is the length of the whitespace run and
`q` the distance to the first semicolon — the regex engine gives back
whitespace to `[^;]+` when the semicolon follows the run directly.  Returns
the captured group. -/
def matchServerNameAt (s : List Char) : Option (List Char) :=
  if headMatch "server_name".data s then
    let after := s.drop 11
    let m := (after.takeWhile pyWs).length
    if m = 0 then none
    else
      match firstIdx (fun c => c = ';') after with
      | none => none
      | some q =>
        if 2 ≤ q then
          some ((after.drop (min m (q - 1))).take (q - min m (q - 1)))
        else none
  else none

/-- Leftmost match of the `server_name` pattern anywhere in the text. -/
def findServerName : List Char → Option (List Char)
  | [] => none
  | c :: rest =>
    match matchServerNameAt (c :: rest) with
    | some g => some g
    | none => findServerName rest

/-- One attempted match of `re.search(r"listen\s+([\d]+)", ...)` at the head
of `s`: the literal, one-or-more whitespace characters, then a nonempty
greedy digit group. -/
def matchListenAt (s : List Char) : Option (List Char) :=
  if headMatch "listen".data s then
    let after := s.drop 6
    let m := (after.takeWhile pyWs).length
    if m = 0 then none
    else
      let ds := (after.drop m).takeWhile pyDigit
      if ds.isEmpty then none else some ds
  else none

/-- Leftmost match of the `listen` pattern anywhere in the text. -/
def findListen : List Char → Option (List Char)
  | [] => none
  | c :: rest =>
    match matchListenAt (c :: rest) with
    | some g => some g
    | none => findListen rest

/-- Python `str.strip()` (whitespace strip at both ends). -/
def pyStrip (s : String) : String :=
  String.mk (((s.data.dropWhile pyWs).reverse.dropWhile pyWs).reverse)

/-- One row of the listing (the dictionary appended per file). -/
structure Summary where
  name : String
  domain : String
  port : String
  typ : String
  ssl : Bool
deriving DecidableEq

/-- The summary `list_configs` derives from one file's text (lines 50–66):
first `server_name` capture stripped, else `"-"`; first `listen` digit
group, else `"-"`; `"proxy"` when `proxy_pass` occurs in the text, else
`"static"`; TLS flag from the presence of `ssl_certificate`. -/
def summarize (name content : String) : Summary :=
  { name := name
    domain :=
      match findServerName content.data with
      | some g => pyStrip (String.mk g)
      | none => "-"
    port :=
      match findListen content.data with
      | some g => String.mk g
      | none => "-"
    typ := if containsS "proxy_pass" content then "proxy" else "static"
    ssl := containsS "ssl_certificate" content }

/-- `NginxManager.list_configs`, over the (name-sorted) glob result. -/
def list_configs (files : List (String × String)) : List Summary :=
  files.map (fun nc => summarize nc.1 nc.2)

/-! ### Concrete fixtures used by witnesses and counterexamples -/

/-- An environment where every external step succeeds. -/
def allOk : Oracle :=
  { relOk := true, absOk := true, lnOk := true, testOk := true,
    reloadOk := true, cwdResolves := fun _ => true }

/-- As `allOk`, but `nginx -t` fails. -/
def noTestOk : Oracle := { allOk with testOk := false }

/-- As `allOk`, but `nginx -s reload` fails. -/
def noReloadOk : Oracle := { allOk with reloadOk := false }

/-- The empty filesystem. -/
def stEmpty : FS :=
  { avail := fun _ => none, enabled := fun _ => none, logdirs := fun _ => false }

/-- A filesystem holding an available artifact `app.conf` and, in the
enabled directory, a symbolic link `app.conf` to a missing external
target (a broken enabled reference). -/
def stBroken : FS :=
  { avail := upd (fun _ => none) "app.conf" (some "server_name app;\n"),
    enabled := upd (fun _ => none) "app.conf" (some (.symlink (.external false))),
    logdirs := fun _ => false }

/-- A static-mode `cfg` dictionary (the proxy-only keys are never read in
static mode, mirroring their absence from the Python dictionary). -/
def cfgStatic (listen root index : String) : SiteCfg :=
  { mode := .static, listen := listen, path := "", proxy_pass := "",
    root := root, index := index }

/-- A proxy-mode `cfg` dictionary (the static-only keys are never read in
proxy mode). -/
def cfgProxy (listen path proxy_pass : String) : SiteCfg :=
  { mode := .proxy, listen := listen, path := path, proxy_pass := proxy_pass,
    root := "", index := "" }

/-- The file-existence predicate of a host where none of the referenced TLS
files exist. -/
def exNone : String → Bool := fun _ => false


/-! ### Outcome states of `write_and_enable`

Derived abbreviations (in terms of the model above) for the three
filesystem states in which `write_and_enable` can terminate, named here so
the engine theorems can refer to them. -/

/-- The state after a successful link creation: the enabled reference for
`name` is a symlink to the available artifact of `name`. -/
def linkedState (st3 : FS) (name : String) : FS :=
  { st3 with
    enabled := upd st3.enabled name (some (Entry.symlink (LinkTarget.toAvail name))) }

/-- The state after the validation-failure rollback: both the available
artifact and the enabled reference for `name` are gone. -/
def rolledBackState (st3 : FS) (name : String) : FS :=
  { st3 with
    avail := upd st3.avail name none,
    enabled := upd st3.enabled name none }

/-- The state after all three symlink methods failed: the just-written
available artifact is removed again, the enabled entry is untouched. -/
def lnFailedState (st3 : FS) (name : String) : FS :=
  { st3 with avail := upd st3.avail name none }

/-! ### Substring lemmas -/

set_option maxRecDepth 10000

theorem headMatch_append_of (p u v : List Char) (h : headMatch p u = true) :
    headMatch p (u ++ v) = true := by
  induction p generalizing u with
  | nil => rfl
  | cons a ps ih =>
    cases u with
    | nil => simp [headMatch] at h
    | cons c cs =>
      simp only [headMatch, Bool.and_eq_true, decide_eq_true_eq] at h
      simp only [List.cons_append, headMatch, Bool.and_eq_true, decide_eq_true_eq]
      exact ⟨h.1, ih cs h.2⟩

theorem headMatch_length_le (p s : List Char) (h : headMatch p s = true) :
    p.length ≤ s.length := by
  induction p generalizing s with
  | nil => simp
  | cons a ps ih =>
    cases s with
    | nil => simp [headMatch] at h
    | cons c cs =>
      simp only [headMatch, Bool.and_eq_true] at h
      simpa using ih cs h.2

theorem headMatch_self_append (p v : List Char) : headMatch p (p ++ v) = true := by
  induction p with
  | nil => rfl
  | cons a ps ih => simp [headMatch, ih]

theorem subStr_of_headMatch (p s : List Char) (h : headMatch p s = true) :
    subStr p s = true := by
  cases s with
  | nil => simpa [subStr] using h
  | cons c cs => simp [subStr, h]

theorem subStr_append_of_right (p a : List Char) {b : List Char}
    (h : subStr p b = true) : subStr p (a ++ b) = true := by
  induction a with
  | nil => exact h
  | cons c cs ih => simp [subStr, ih]

theorem subStr_append_of_left (p : List Char) {a : List Char} (b : List Char)
    (h : subStr p a = true) : subStr p (a ++ b) = true := by
  induction a with
  | nil =>
    cases p with
    | nil => exact subStr_of_headMatch _ _ rfl
    | cons x xs => simp [subStr, headMatch] at h
  | cons c cs ih =>
    simp only [subStr, Bool.or_eq_true] at h
    rcases h with h | h
    · exact subStr_of_headMatch _ _ (headMatch_append_of _ _ _ h)
    · have h2 : subStr p (cs ++ b) = true := ih h
      simp [subStr, h2]

theorem subStr_sandwich (a p b : List Char) : subStr p (a ++ (p ++ b)) = true :=
  subStr_append_of_right p a (subStr_of_headMatch _ _ (headMatch_self_append p b))

theorem headMatch_short (p u v : List Char) (h : headMatch p (u ++ v) = true)
    (hl : p.length ≤ u.length) : headMatch p u = true := by
  induction p generalizing u with
  | nil => rfl
  | cons a ps ih =>
    cases u with
    | nil => simp at hl
    | cons c cs =>
      simp only [List.cons_append, headMatch, Bool.and_eq_true] at h
      simp only [headMatch, Bool.and_eq_true]
      exact ⟨h.1, ih cs h.2 (by simpa using hl)⟩

theorem charIn_iff_mem (c : Char) (l : List Char) : charIn c l = true ↔ c ∈ l := by
  simp [charIn]

theorem headMatch_cover (p u v : List Char) (h : headMatch p (u ++ v) = true)
    (hl : u.length < p.length) : ∀ c ∈ u, charIn c p = true := by
  induction u generalizing p with
  | nil => intro c hc; simp at hc
  | cons x xs ih =>
    cases p with
    | nil => simp at hl
    | cons a ps =>
      simp only [List.cons_append, headMatch, Bool.and_eq_true, decide_eq_true_eq] at h
      intro c hc
      rw [charIn_iff_mem]
      rcases List.mem_cons.mp hc with rfl | hc
      · exact h.1 ▸ List.mem_cons_self a ps
      · have h3 := ih ps h.2 (by simpa using hl) c hc
        rw [charIn_iff_mem] at h3
        exact List.mem_cons_of_mem _ h3

theorem headMatch_long_head (p u v : List Char) (h : headMatch p (u ++ v) = true)
    (hl : u.length < p.length) : ∃ c, v.head? = some c ∧ charIn c p = true := by
  induction u generalizing p with
  | nil =>
    cases p with
    | nil => simp at hl
    | cons a ps =>
      cases v with
      | nil => simp [headMatch] at h
      | cons c cs =>
        simp only [List.nil_append, headMatch, Bool.and_eq_true, decide_eq_true_eq] at h
        refine ⟨c, rfl, ?_⟩
        rw [charIn_iff_mem]
        exact h.1 ▸ List.mem_cons_self a ps
  | cons x xs ih =>
    cases p with
    | nil => simp at hl
    | cons a ps =>
      simp only [List.cons_append, headMatch, Bool.and_eq_true] at h
      obtain ⟨c, hc1, hc2⟩ := ih ps h.2 (by simpa using hl)
      refine ⟨c, hc1, ?_⟩
      rw [charIn_iff_mem] at hc2 ⊢
      exact List.mem_cons_of_mem _ hc2

theorem headMatch_false_of_lt (p s : List Char) (hl : s.length < p.length) :
    headMatch p s = false := by
  cases hm : headMatch p s with
  | false => rfl
  | true =>
    have := headMatch_length_le p s hm
    omega

theorem getLast?_exists_mem (l : List Char) (h : l ≠ []) :
    ∃ c, l.getLast? = some c ∧ c ∈ l := by
  induction l with
  | nil => exact absurd rfl h
  | cons x xs ih =>
    cases xs with
    | nil => exact ⟨x, rfl, List.mem_cons_self _ _⟩
    | cons y ys =>
      obtain ⟨c, hc1, hc2⟩ := ih (by simp)
      exact ⟨c, by rw [List.getLast?_cons_cons]; exact hc1, List.mem_cons_of_mem _ hc2⟩

theorem subStr_nil_pat (b : List Char) : subStr [] b = true := by
  cases b <;> simp [subStr, headMatch]

theorem subStr_break_last (p a b : List Char) :
    (∀ c, a.getLast? = some c → charIn c p = false) →
    subStr p (a ++ b) = (subStr p a || subStr p b) := by
  induction a with
  | nil =>
    intro _
    cases p with
    | nil => simp [subStr_nil_pat, subStr, headMatch]
    | cons x xs => simp [subStr, headMatch]
  | cons x xs ih =>
    intro hlast
    have hrec := ih (fun c hc => hlast c (by
      cases xs with
      | nil => simp at hc
      | cons y ys => rw [List.getLast?_cons_cons]; exact hc))
    have key : headMatch p (x :: (xs ++ b)) = headMatch p (x :: xs) := by
      rcases Nat.lt_or_ge (x :: xs).length p.length with hgt | hle
      · obtain ⟨c, hc1, hc2⟩ := getLast?_exists_mem (x :: xs) (by simp)
        cases hm : headMatch p (x :: (xs ++ b)) with
        | false => rw [headMatch_false_of_lt p (x :: xs) hgt]
        | true =>
          have hcov := headMatch_cover p (x :: xs) b (by simpa using hm) hgt c hc2
          rw [hlast c hc1] at hcov
          exact absurd hcov (by simp)
      · cases hm : headMatch p (x :: (xs ++ b)) with
        | true =>
          rw [headMatch_short p (x :: xs) b (by simpa using hm) hle]
        | false =>
          cases hm2 : headMatch p (x :: xs) with
          | false => rfl
          | true =>
            have := headMatch_append_of p (x :: xs) b hm2
            rw [List.cons_append] at this
            rw [this] at hm
            exact hm.symm
    simp only [List.cons_append, subStr, List.append_eq, key, hrec]
    rw [Bool.or_assoc]

theorem subStr_break_head (p a b : List Char)
    (hhead : ∀ c, b.head? = some c → charIn c p = false) :
    subStr p (a ++ b) = (subStr p a || subStr p b) := by
  induction a with
  | nil =>
    cases p with
    | nil => simp [subStr_nil_pat, subStr, headMatch]
    | cons x xs => simp [subStr, headMatch]
  | cons x xs ih =>
    have key : headMatch p (x :: (xs ++ b)) = headMatch p (x :: xs) := by
      rcases Nat.lt_or_ge (x :: xs).length p.length with hgt | hle
      · cases hm : headMatch p (x :: (xs ++ b)) with
        | false => rw [headMatch_false_of_lt p (x :: xs) hgt]
        | true =>
          obtain ⟨c, hc1, hc2⟩ := headMatch_long_head p (x :: xs) b (by simpa using hm) hgt
          rw [hhead c hc1] at hc2
          exact absurd hc2 (by simp)
      · cases hm : headMatch p (x :: (xs ++ b)) with
        | true =>
          rw [headMatch_short p (x :: xs) b (by simpa using hm) hle]
        | false =>
          cases hm2 : headMatch p (x :: xs) with
          | false => rfl
          | true =>
            have := headMatch_append_of p (x :: xs) b hm2
            rw [List.cons_append] at this
            rw [this] at hm
            exact hm.symm
    simp only [List.cons_append, subStr, List.append_eq, key, ih]
    rw [Bool.or_assoc]

theorem containsS_append_right (p a b : String) (h : containsS p b = true) :
    containsS p (a ++ b) = true := by
  unfold containsS at h ⊢
  rw [String.data_append]
  exact subStr_append_of_right _ _ h

theorem containsS_append_left (p a b : String) (h : containsS p a = true) :
    containsS p (a ++ b) = true := by
  unfold containsS at h ⊢
  rw [String.data_append]
  exact subStr_append_of_left _ _ h

theorem containsS_sandwich (a p b : String) : containsS p (a ++ (p ++ b)) = true := by
  unfold containsS
  rw [String.data_append, String.data_append]
  exact subStr_sandwich _ _ _

theorem containsS_break_last (p a b : String)
    (hlast : ∀ c, a.data.getLast? = some c → charIn c p.data = false) :
    containsS p (a ++ b) = (containsS p a || containsS p b) := by
  unfold containsS
  rw [String.data_append]
  exact subStr_break_last _ _ _ hlast

theorem containsS_break_head (p a b : String)
    (hhead : ∀ c, b.data.head? = some c → charIn c p.data = false) :
    containsS p (a ++ b) = (containsS p a || containsS p b) := by
  unfold containsS
  rw [String.data_append]
  exact subStr_break_head _ _ _ hhead

/-! ### Sanitisation claims -/

theorem sanitize_keep_eq (c : Char) :
    (pyWordChar c || c = '.' || c = '-') = (specKeep c || latin1AlphaNum c) := by
  simp only [pyWordChar, specKeep]
  generalize ('A' ≤ c && c ≤ 'Z') = a
  generalize ('a' ≤ c && c ≤ 'z') = b2
  generalize ('0' ≤ c && c ≤ '9') = b3
  generalize (decide (c = '_')) = u
  generalize (latin1AlphaNum c) = l
  generalize (decide (c = '.')) = d
  generalize (decide (c = '-')) = h2
  cases a <;> cases b2 <;> cases b3 <;> cases u <;> cases l <;> cases d <;>
    cases h2 <;> rfl

/-- C5 counterexample: the claim prescribes that every character outside
`[A-Za-z0-9._-]` is replaced by `_`, but on the domain `"é"` the code keeps
the character (Python `\w` matches Unicode alphanumerics), while the
spec-modelled sanitiser replaces it. -/
theorem sanitize_spec_divergence :
    sanitize_domain "é" = "é" ∧ specSanitize "é" = "_" ∧
    sanitize_domain "é" ≠ specSanitize "é" :=
  ⟨by decide, by decide, by decide⟩

/-- C5 amended: for domains over code points below 0x100 (the range where the
embedding models Python's `\w` exactly), the sanitised key keeps every
character of `[A-Za-z0-9._-]` and additionally every Latin-1 alphanumeric
character, and replaces all others by `_`. -/
theorem sanitize_amended (s : String) (_h : ∀ c ∈ s.data, c.val < 0x100) :
    sanitize_domain s =
      String.mk (s.data.map
        (fun c => if specKeep c || latin1AlphaNum c then c else '_')) := by
  unfold sanitize_domain
  refine congrArg String.mk (List.map_congr_left ?_)
  intro c _
  rw [sanitize_keep_eq c]

/-- Closed instance of `sanitize_amended` at a concrete domain. -/
theorem sanitize_amended_witness :
    (∀ c ∈ ("api.example-v2.com/x é" : String).data, c.val < 0x100) ∧
    sanitize_domain "api.example-v2.com/x é" =
      String.mk (("api.example-v2.com/x é" : String).data.map
        (fun c => if specKeep c || latin1AlphaNum c then c else '_')) :=
  ⟨by decide, sanitize_amended "api.example-v2.com/x é" (by decide)⟩

/-- C10: sanitisation is not injective — the distinct domains `"a/b"` and
`"a:b"` share the sanitised key, hence the same available artifact and
enabled reference; activating the second overwrites the first's artifact,
and deactivating the first removes the second's. -/
theorem sanitize_not_injective :
    ("a/b" : String) ≠ "a:b" ∧
    sanitize_domain "a/b" = sanitize_domain "a:b" ∧
    confName "a/b" = confName "a:b" ∧
    (write_and_enable allOk
        (write_and_enable allOk stEmpty "a/b" "server one").2
        "a:b" "server two").2.avail (confName "a/b") = some "server two\n" ∧
    (delete_config allOk
        (write_and_enable allOk stEmpty "a:b" "server two").2
        "a/b").2.avail (confName "a:b") = none :=
  ⟨by decide, by decide, by decide, by decide, by decide⟩

/-! ### TLS directive filtering claims -/

theorem append_merge3 (a b c d x : String) (h : a ++ b ++ c = d) :
    a ++ (b ++ (c ++ x)) = d ++ x := by
  rw [← h, String.append_assoc, String.append_assoc]

/-- C4 counterexample: under a file-existence predicate for which no
referenced file exists, the certificate-path directive `ssl_certificate`
is still emitted — both among the SSL lines and in the fully rendered main
block — refuting "each such directive (including certificate-path
directives) appears in the output if and only if its referenced file
exists". -/
theorem ssl_omission_cex :
    ("ssl_certificate /etc/letsencrypt/live/example.com/fullchain.pem;" ∈
        ssl_lines exNone "example.com") ∧
    exNone "/etc/letsencrypt/live/example.com/fullchain.pem" = false ∧
    containsS "ssl_certificate /etc/letsencrypt/live/example.com/fullchain.pem;"
      (build exNone "example.com" (cfgProxy "443" "/" "http://localhost:5173")
        [] true false) = true :=
  ⟨by decide, by decide, by decide⟩

/-- The exact shape of the rendered SSL lines: only the `include` and
`ssl_dhparam` entries are conditional on file existence. -/
theorem ssl_lines_shape (ex : String → Bool) (domain : String) :
    ssl_lines ex domain =
      ["listen 443 ssl http2;",
       "ssl_certificate /etc/letsencrypt/live/" ++ domain ++ "/fullchain.pem;",
       "ssl_certificate_key /etc/letsencrypt/live/" ++ domain ++ "/privkey.pem;",
       "ssl_session_timeout 1d;",
       "ssl_session_cache shared:SSL:10m;",
       "ssl_session_tickets off;",
       "ssl_protocols TLSv1.2 TLSv1.3;",
       "ssl_ciphers ECDHE-ECDSA-AES128-GCM-SHA256:ECDHE-RSA-AES128-GCM-SHA256:ECDHE-ECDSA-AES256-GCM-SHA384:ECDHE-RSA-AES256-GCM-SHA384:ECDHE-ECDSA-CHACHA20-POLY1305:ECDHE-RSA-CHACHA20-POLY1305:DHE-RSA-AES128-GCM-SHA256:DHE-RSA-AES256-GCM-SHA384;",
       "ssl_prefer_server_ciphers off;"] ++
      (if ex "/etc/letsencrypt/options-ssl-nginx.conf" then
        ["include /etc/letsencrypt/options-ssl-nginx.conf;"] else []) ++
      (if ex "/etc/letsencrypt/ssl-dhparams.pem" then
        ["ssl_dhparam /etc/letsencrypt/ssl-dhparams.pem;"] else []) ++
      ["ssl_stapling on;",
       "ssl_stapling_verify on;",
       "resolver 8.8.8.8 8.8.4.4 valid=60s;",
       "resolver_timeout 2s;"] := by
  cases h1 : ex "/etc/letsencrypt/options-ssl-nginx.conf" <;>
    cases h2 : ex "/etc/letsencrypt/ssl-dhparams.pem" <;>
      simp [ssl_lines, ssl_config_block, h1, h2, String.append_assoc] <;>
        exact ⟨append_merge3 _ _ _ _ _ (by decide),
               append_merge3 _ _ _ _ _ (by decide)⟩


/-- C4 amended: only the shared TLS parameter file directives (`include`,
`ssl_dhparam`) are existence-filtered — each appears exactly when its
referenced file exists — while every other directive of the fixed ordered
TLS sequence, the certificate-path directives included, is always emitted,
in the fixed order. -/
theorem ssl_lines_existence_filter (ex : String → Bool) (domain : String) :
    ssl_lines ex domain =
      ["listen 443 ssl http2;",
       "ssl_certificate /etc/letsencrypt/live/" ++ domain ++ "/fullchain.pem;",
       "ssl_certificate_key /etc/letsencrypt/live/" ++ domain ++ "/privkey.pem;",
       "ssl_session_timeout 1d;",
       "ssl_session_cache shared:SSL:10m;",
       "ssl_session_tickets off;",
       "ssl_protocols TLSv1.2 TLSv1.3;",
       "ssl_ciphers ECDHE-ECDSA-AES128-GCM-SHA256:ECDHE-RSA-AES128-GCM-SHA256:ECDHE-ECDSA-AES256-GCM-SHA384:ECDHE-RSA-AES256-GCM-SHA384:ECDHE-ECDSA-CHACHA20-POLY1305:ECDHE-RSA-CHACHA20-POLY1305:DHE-RSA-AES128-GCM-SHA256:DHE-RSA-AES256-GCM-SHA384;",
       "ssl_prefer_server_ciphers off;"] ++
      (if ex "/etc/letsencrypt/options-ssl-nginx.conf" then
        ["include /etc/letsencrypt/options-ssl-nginx.conf;"] else []) ++
      (if ex "/etc/letsencrypt/ssl-dhparams.pem" then
        ["ssl_dhparam /etc/letsencrypt/ssl-dhparams.pem;"] else []) ++
      ["ssl_stapling on;",
       "ssl_stapling_verify on;",
       "resolver 8.8.8.8 8.8.4.4 valid=60s;",
       "resolver_timeout 2s;"] :=
  ssl_lines_shape ex domain

/-! ### Redirect block claims -/

theorem containsS_field_line (a sn d semi b : String) :
    containsS (sn ++ (d ++ semi)) (a ++ sn ++ d ++ (semi ++ b)) = true := by
  have h : a ++ sn ++ d ++ (semi ++ b) = a ++ ((sn ++ (d ++ semi)) ++ b) := by
    simp [String.append_assoc]
  rw [h]
  exact containsS_sandwich _ _ _

/-- C7 counterexample: for a site configured with plain listen port 8080,
the emitted redirect block does not listen on that port — it contains
`listen 80;` and no `listen 8080` — refuting "listens on the plain
(non-TLS) port" read against the site's configured port. -/
theorem redirect_listen_cex :
    containsS "listen 8080"
      (build exNone "example.com" (cfgProxy "8080" "/" "http://localhost:5173")
        [] false true) = false ∧
    containsS "listen 80;"
      (build exNone "example.com" (cfgProxy "8080" "/" "http://localhost:5173")
        [] false true) = true :=
  ⟨by decide, by decide⟩

/-- C7 amended: the redirect block always listens on the fixed plain HTTP
port 80 (regardless of the configured `listen` port); it matches the domain
literally in its `server_name` declaration, returns a permanent `301`
redirect to the HTTPS equivalent of the request URI, and its literal text
around the spliced domain contains no TLS (`ssl`) directives and no
`location` directives. -/
theorem redirect_block_amended (ex : String → Bool) (domain : String)
    (cfg : SiteCfg) (locations : List Location) (ssl : Bool) :
    build ex domain cfg locations ssl true =
      redirect_pre ++ domain ++ redirect_suf ∧
    containsS "listen 80;" redirect_pre = true ∧
    containsS ("server_name " ++ (domain ++ ";"))
      (build ex domain cfg locations ssl true) = true ∧
    containsS "return 301 https://$host$request_uri;" redirect_suf = true ∧
    containsS "ssl" redirect_pre = false ∧
    containsS "ssl" redirect_suf = false ∧
    containsS "location" redirect_pre = false ∧
    containsS "location" redirect_suf = false := by
  have e1 : ("server \x7b\n    listen 80;\n    " : String) ++ "server_name " =
      redirect_pre := by decide
  have e2 : (";" : String) ++
      "\n    \n    # Redirect all HTTP traffic to HTTPS\n    return 301 https://$host$request_uri;\n\x7d\n" =
      redirect_suf := by decide
  refine ⟨rfl, by decide, ?_, by decide, by decide, by decide, by decide, by decide⟩
  have hb : build ex domain cfg locations ssl true =
      redirect_pre ++ domain ++ redirect_suf := rfl
  rw [hb, ← e1, ← e2]
  exact containsS_field_line _ _ _ _ _

/-! ### Token-absence machinery -/

theorem getLast?_data_append (a b : String) (h : b.data ≠ []) :
    (a ++ b).data.getLast? = b.data.getLast? := by
  rw [String.data_append]
  exact List.getLast?_append_of_ne_nil _ h

theorem bHead (p b : String)
    (h : b.data.head?.all (fun c => !charIn c p.data) = true) :
    ∀ c, b.data.head? = some c → charIn c p.data = false := by
  intro c hc
  rw [hc] at h
  simpa using h

theorem bSelf (p lit : String)
    (h : lit.data.getLast?.all (fun c => !charIn c p.data) = true) :
    ∀ c, lit.data.getLast? = some c → charIn c p.data = false := by
  intro c hc
  rw [hc] at h
  simpa using h

theorem bLast (p lit a : String) (hne : lit.data ≠ [])
    (h : lit.data.getLast?.all (fun c => !charIn c p.data) = true) :
    ∀ c, (a ++ lit).data.getLast? = some c → charIn c p.data = false := by
  intro c hc
  rw [getLast?_data_append a lit hne] at hc
  exact bSelf p lit h c hc

theorem containsS_append_false_head (p a b : String)
    (hh : ∀ c, b.data.head? = some c → charIn c p.data = false)
    (ha : containsS p a = false) (hb : containsS p b = false) :
    containsS p (a ++ b) = false := by
  rw [containsS_break_head p a b hh, ha, hb]
  rfl

theorem containsS_append_false_last (p a b : String)
    (hl : ∀ c, a.data.getLast? = some c → charIn c p.data = false)
    (ha : containsS p a = false) (hb : containsS p b = false) :
    containsS p (a ++ b) = false := by
  rw [containsS_break_last p a b hl, ha, hb]
  rfl

theorem containsS_empty_false (p : String) (h : p.data ≠ []) :
    containsS p "" = false := by
  unfold containsS
  cases hp : p.data with
  | nil => exact absurd hp h
  | cons x xs => rfl

theorem containsS_joinSep_false (p sep : String) (l : List String)
    (hpne : p.data ≠ []) (hsepne : sep.data ≠ [])
    (hsep : containsS p sep = false)
    (hsh : ∀ c, sep.data.head? = some c → charIn c p.data = false)
    (hsl : ∀ c, sep.data.getLast? = some c → charIn c p.data = false)
    (hl : ∀ s ∈ l, containsS p s = false) :
    containsS p (joinSep sep l) = false := by
  induction l with
  | nil => exact containsS_empty_false p hpne
  | cons s rest ih =>
    cases rest with
    | nil => exact hl s (List.mem_cons_self _ _)
    | cons t ts =>
      show containsS p ((s ++ sep) ++ joinSep sep (t :: ts)) = false
      refine containsS_append_false_last p _ _ ?_ ?_ ?_
      · intro c hc
        rw [getLast?_data_append s sep hsepne] at hc
        exact hsl c hc
      · exact containsS_append_false_head p s sep hsh
          (hl s (List.mem_cons_self _ _)) hsep
      · exact ih (fun x hx => hl x (List.mem_cons_of_mem _ hx))

theorem containsS_joinSep_head (p sep s : String) (rest : List String)
    (h : containsS p s = true) :
    containsS p (joinSep sep (s :: rest)) = true := by
  cases rest with
  | nil => exact h
  | cons t ts =>
    show containsS p ((s ++ sep) ++ joinSep sep (t :: ts)) = true
    exact containsS_append_left _ _ _ (containsS_append_left _ _ _ h)

/-! ### Mutual-exclusivity claims -/

theorem build_static_eq (ex : String → Bool) (domain port root index : String)
    (locations : List Location) (ssl : Bool) :
    build ex domain (cfgStatic port root index) locations ssl false =
      (log_format_main ++ "\n") ++
        server_block_fmt port domain (static_server_directives root index)
          (build_log_config domain) build_security_config rate_limiting_joined
          (joinSep "\n\n" (locations.map
            (fun loc => build_custom_location loc.path loc.directives)))
          (if ssl then build_ssl_config ex domain else "") := by
  simp [build, static_directives, location_blocks, cfgStatic]

theorem build_proxy_eq (ex : String → Bool) (domain port ppath ppass : String)
    (locations : List Location) (ssl : Bool) :
    build ex domain (cfgProxy port ppath ppass) locations ssl false =
      (log_format_main ++ "\n") ++
        server_block_fmt port domain ""
          (build_log_config domain) build_security_config rate_limiting_joined
          (joinSep "\n\n" (proxy_location_block ppath ppass ::
            locations.map (fun loc => build_custom_location loc.path loc.directives)))
          (if ssl then build_ssl_config ex domain else "") := by
  simp [build, static_directives, location_blocks, cfgProxy, build_proxy_location]

theorem static_sd_no_pp (root index : String)
    (hr : containsS "proxy_pass" root = false)
    (hi : containsS "proxy_pass" index = false) :
    containsS "proxy_pass" (static_server_directives root index) = false := by
  unfold static_server_directives
  refine containsS_append_false_head _ _ _ (bHead _ _ (by decide)) ?_ (by decide)
  refine containsS_append_false_last _ _ _ (bLast _ _ _ (by decide) (by decide)) ?_ hi
  refine containsS_append_false_head _ _ _ (bHead _ _ (by decide)) ?_ (by decide)
  exact containsS_append_false_last _ _ _ (bSelf _ _ (by decide)) (by decide) hr

theorem log_config_no_pp (domain : String)
    (hd : containsS "proxy_pass" domain = false) :
    containsS "proxy_pass" (build_log_config domain) = false := by
  unfold build_log_config
  refine containsS_append_false_head _ _ _ (bHead _ _ (by decide)) ?_ (by decide)
  refine containsS_append_false_last _ _ _ (bLast _ _ _ (by decide) (by decide)) ?_ hd
  refine containsS_append_false_head _ _ _ (bHead _ _ (by decide)) ?_ (by decide)
  exact containsS_append_false_last _ _ _ (bSelf _ _ (by decide)) (by decide) hd

theorem custom_location_no_pp (path : String) (directives : List (String × String))
    (hp : containsS "proxy_pass" path = false)
    (hds : ∀ dv ∈ directives, containsS "proxy_pass" dv.1 = false ∧
      containsS "proxy_pass" dv.2 = false) :
    containsS "proxy_pass" (build_custom_location path directives) = false := by
  unfold build_custom_location
  refine containsS_joinSep_false _ _ _ (by decide) (by decide) (by decide)
    (bHead _ _ (by decide)) (bSelf _ _ (by decide)) ?_
  intro s hs
  rcases List.mem_cons.mp hs with rfl | hs
  · refine containsS_append_false_head _ _ _ (bHead _ _ (by decide)) ?_ (by decide)
    exact containsS_append_false_last _ _ _ (bSelf _ _ (by decide)) (by decide) hp
  · rcases List.mem_append.mp hs with hs | hs
    · obtain ⟨dv, hdv, rfl⟩ := List.mem_map.mp hs
      obtain ⟨hd1, hd2⟩ := hds dv hdv
      refine containsS_append_false_head _ _ _ (bHead _ _ (by decide)) ?_ (by decide)
      refine containsS_append_false_last _ _ _ (bLast _ _ _ (by decide) (by decide)) ?_ hd2
      refine containsS_append_false_head _ _ _ (bHead _ _ (by decide)) ?_ (by decide)
      exact containsS_append_false_last _ _ _ (bSelf _ _ (by decide)) (by decide) hd1
    · have hz : s = "\x7d" := by simpa using hs
      subst hz
      decide

theorem ssl_config_no_pp (ex : String → Bool) (domain : String)
    (hd : containsS "proxy_pass" domain = false) :
    containsS "proxy_pass" (build_ssl_config ex domain) = false := by
  unfold build_ssl_config
  rw [ssl_lines_shape]
  refine containsS_joinSep_false _ _ _ (by decide) (by decide) (by decide)
    (bHead _ _ (by decide)) (bSelf _ _ (by decide)) ?_
  intro s hs
  rcases List.mem_append.mp hs with hs | hs
  · rcases List.mem_append.mp hs with hs | hs
    · rcases List.mem_append.mp hs with hs | hs
      · simp only [List.mem_cons, List.not_mem_nil, or_false] at hs
        rcases hs with rfl | rfl | rfl | rfl | rfl | rfl | rfl | rfl | rfl
        · decide
        · refine containsS_append_false_head _ _ _ (bHead _ _ (by decide)) ?_ (by decide)
          exact containsS_append_false_last _ _ _ (bSelf _ _ (by decide)) (by decide) hd
        · refine containsS_append_false_head _ _ _ (bHead _ _ (by decide)) ?_ (by decide)
          exact containsS_append_false_last _ _ _ (bSelf _ _ (by decide)) (by decide) hd
        · decide
        · decide
        · decide
        · decide
        · decide
        · decide
      · cases hx : ex "/etc/letsencrypt/options-ssl-nginx.conf" with
        | true => rw [hx] at hs; simp at hs; subst hs; decide
        | false => rw [hx] at hs; simp at hs
    · cases hx : ex "/etc/letsencrypt/ssl-dhparams.pem" with
      | true => rw [hx] at hs; simp at hs; subst hs; decide
      | false => rw [hx] at hs; simp at hs
  · simp only [List.mem_cons, List.not_mem_nil, or_false] at hs
    rcases hs with rfl | rfl | rfl | rfl <;> decide

theorem server_block_no_pp (port domain static log sec rate locs sslp : String)
    (h1 : containsS "proxy_pass" port = false)
    (h2 : containsS "proxy_pass" domain = false)
    (h3 : containsS "proxy_pass" static = false)
    (h4 : containsS "proxy_pass" log = false)
    (h5 : containsS "proxy_pass" sec = false)
    (h6 : containsS "proxy_pass" rate = false)
    (h7 : containsS "proxy_pass" locs = false)
    (h8 : containsS "proxy_pass" sslp = false) :
    containsS "proxy_pass"
      (server_block_fmt port domain static log sec rate locs sslp) = false := by
  unfold server_block_fmt
  refine containsS_append_false_head _ _ _ (bHead _ _ (by decide)) ?_ (by decide)
  refine containsS_append_false_last _ _ _ (bLast _ _ _ (by decide) (by decide)) ?_ h8
  refine containsS_append_false_head _ _ _ (bHead _ _ (by decide)) ?_ (by decide)
  refine containsS_append_false_last _ _ _ (bLast _ _ _ (by decide) (by decide)) ?_ h7
  refine containsS_append_false_head _ _ _ (bHead _ _ (by decide)) ?_ (by decide)
  refine containsS_append_false_last _ _ _ (bLast _ _ _ (by decide) (by decide)) ?_ h6
  refine containsS_append_false_head _ _ _ (bHead _ _ (by decide)) ?_ (by decide)
  refine containsS_append_false_last _ _ _ (bLast _ _ _ (by decide) (by decide)) ?_ h5
  refine containsS_append_false_head _ _ _ (bHead _ _ (by decide)) ?_ (by decide)
  refine containsS_append_false_last _ _ _ (bLast _ _ _ (by decide) (by decide)) ?_ h4
  refine containsS_append_false_head _ _ _ (bHead _ _ (by decide)) ?_ (by decide)
  refine containsS_append_false_last _ _ _ (bLast _ _ _ (by decide) (by decide)) ?_ h3
  refine containsS_append_false_head _ _ _ (bHead _ _ (by decide)) ?_ (by decide)
  refine containsS_append_false_last _ _ _ (bLast _ _ _ (by decide) (by decide)) ?_ h2
  refine containsS_append_false_head _ _ _ (bHead _ _ (by decide)) ?_ (by decide)
  exact containsS_append_false_last _ _ _ (bSelf _ _ (by decide)) (by decide) h1

theorem proxy_block_has_pp (path proxy_pass : String) :
    containsS "proxy_pass" (proxy_location_block path proxy_pass) = true := by
  unfold proxy_location_block
  apply containsS_append_left
  apply containsS_append_left
  apply containsS_append_right
  decide

/-- C6 counterexample: a static-mode site whose extra location carries a
`proxy_pass` directive renders to text containing both the root/index
static directives and a `proxy_pass` directive, refuting "either
root/index static directives or a proxy_pass directive, but never both"
over arbitrary extraLocations. -/
theorem mutual_exclusivity_cex :
    containsS "root /var/www/html;"
      (build exNone "example.com" (cfgStatic "80" "/var/www/html" "index.html")
        [{ path := "/api", directives := [("proxy_pass", "http://localhost:3000")] }]
        false false) = true ∧
    containsS "index index.html;"
      (build exNone "example.com" (cfgStatic "80" "/var/www/html" "index.html")
        [{ path := "/api", directives := [("proxy_pass", "http://localhost:3000")] }]
        false false) = true ∧
    containsS "proxy_pass http://localhost:3000;"
      (build exNone "example.com" (cfgStatic "80" "/var/www/html" "index.html")
        [{ path := "/api", directives := [("proxy_pass", "http://localhost:3000")] }]
        false false) = true :=
  ⟨by decide, by decide, by decide⟩

/-- C6 amended: the builder's own contributions are mode-exclusive — a
static-mode site always contains the root/index directives and contains no
`proxy_pass` token unless one occurs verbatim in a user-supplied field or
extra location directive; a proxy-mode site always contains a `proxy_pass`
directive and receives no static directives at all. -/
theorem mutual_exclusivity_amended (ex : String → Bool)
    (domain port root index ppath ppass : String)
    (locations : List Location) (ssl : Bool)
    (hd : containsS "proxy_pass" domain = false)
    (hp : containsS "proxy_pass" port = false)
    (hr : containsS "proxy_pass" root = false)
    (hi : containsS "proxy_pass" index = false)
    (hloc : ∀ loc ∈ locations, containsS "proxy_pass" loc.path = false ∧
      ∀ dv ∈ loc.directives, containsS "proxy_pass" dv.1 = false ∧
        containsS "proxy_pass" dv.2 = false) :
    containsS "proxy_pass"
      (build ex domain (cfgStatic port root index) locations ssl false) = false ∧
    containsS ("root " ++ (root ++ ";"))
      (build ex domain (cfgStatic port root index) locations ssl false) = true ∧
    containsS "proxy_pass"
      (build ex domain (cfgProxy port ppath ppass) locations ssl false) = true ∧
    static_directives (cfgProxy port ppath ppass) = "" := by
  refine ⟨?_, ?_, ?_, rfl⟩
  · rw [build_static_eq]
    refine containsS_append_false_last _ _ _ (bLast _ _ _ (by decide) (by decide))
      (by decide) ?_
    refine server_block_no_pp _ _ _ _ _ _ _ _ hp hd
      (static_sd_no_pp root index hr hi) (log_config_no_pp domain hd)
      (by decide) (by decide) ?_ ?_
    · refine containsS_joinSep_false _ _ _ (by decide) (by decide) (by decide)
        (bHead _ _ (by decide)) (bSelf _ _ (by decide)) ?_
      intro s hs
      obtain ⟨loc, hm, rfl⟩ := List.mem_map.mp hs
      obtain ⟨hip, hids⟩ := hloc loc hm
      exact custom_location_no_pp loc.path loc.directives hip hids
    · cases ssl with
      | true => simpa using ssl_config_no_pp ex domain hd
      | false => simpa using containsS_empty_false "proxy_pass" (by decide)
  · rw [build_static_eq]
    apply containsS_append_right
    unfold server_block_fmt
    apply containsS_append_left
    apply containsS_append_left
    apply containsS_append_left
    apply containsS_append_left
    apply containsS_append_left
    apply containsS_append_left
    apply containsS_append_left
    apply containsS_append_left
    apply containsS_append_left
    apply containsS_append_left
    apply containsS_append_left
    apply containsS_append_right
    unfold static_server_directives
    apply containsS_append_left
    apply containsS_append_left
    rw [show ("    # Static site configuration\n    root " : String) =
        "    # Static site configuration\n    " ++ "root " from by decide,
      show (";\n    index " : String) = ";" ++ "\n    index " from by decide]
    exact containsS_field_line _ _ _ _ _
  · rw [build_proxy_eq]
    apply containsS_append_right
    unfold server_block_fmt
    apply containsS_append_left
    apply containsS_append_left
    apply containsS_append_left
    apply containsS_append_right
    exact containsS_joinSep_head _ _ _ _ (proxy_block_has_pp ppath ppass)

/-- Closed instance of `mutual_exclusivity_amended` at concrete sites. -/
theorem mutual_exclusivity_amended_witness :
    containsS "proxy_pass"
      (build exNone "static.example.com" (cfgStatic "80" "/srv/www" "index.html")
        [{ path := "/files", directives := [("autoindex", "on")] }] true false) = false ∧
    containsS ("root " ++ ("/srv/www" ++ ";"))
      (build exNone "static.example.com" (cfgStatic "80" "/srv/www" "index.html")
        [{ path := "/files", directives := [("autoindex", "on")] }] true false) = true ∧
    containsS "proxy_pass"
      (build exNone "static.example.com" (cfgProxy "80" "/" "http://localhost:5173")
        [{ path := "/files", directives := [("autoindex", "on")] }] true false) = true ∧
    static_directives (cfgProxy "80" "/" "http://localhost:5173") = "" :=
  mutual_exclusivity_amended exNone "static.example.com" "80" "/srv/www" "index.html"
    "/" "http://localhost:5173" [⟨"/files", [("autoindex", "on")]⟩] true
    (by decide) (by decide) (by decide) (by decide) (by decide)

/-! ### Activation engine lemmas -/

theorem upd_same {α : Type} (f : String → Option α) (k : String) (v : Option α) :
    upd f k v k = v := by
  simp [upd]

theorem upd_upd_same {α : Type} (f : String → Option α) (k : String)
    (v w : Option α) : upd (upd f k v) k w = upd f k w := by
  funext x
  unfold upd
  split <;> rfl

theorem upd_eq_self {α : Type} (f : String → Option α) (k : String)
    (v : Option α) (h : f k = v) : upd f k v = f := by
  funext x
  unfold upd
  split
  · rename_i hx
    subst hx
    exact h.symm
  · rfl

theorem updB_eq_self (f : String → Bool) (k : String) (h : f k = true) :
    updB f k = f := by
  funext x
  unfold updB
  split
  · rename_i hx
    subst hx
    exact h.symm
  · rfl

theorem removeEnabledEntry_avail (st : FS) (name : String) :
    (removeEnabledEntry st name).avail = st.avail := by
  unfold removeEnabledEntry
  split
  · split <;> rfl
  · rfl

theorem removeEnabledEntry_logdirs (st : FS) (name : String) :
    (removeEnabledEntry st name).logdirs = st.logdirs := by
  unfold removeEnabledEntry
  split
  · split <;> rfl
  · rfl

theorem postWrite_avail_at (st : FS) (domain conf : String) :
    (postWrite st domain conf).avail (confName domain) = some (conf ++ "\n") := by
  simp [postWrite, upd]

/-- Full case analysis of `write_and_enable`: the post-write verification
checks of lines 96–134 always pass in this model (the artifact was just
written and the created link points at it), so a run terminates in exactly
one of the four outcome states, according to whether some link-creation
method succeeded and to the two external command outcomes. -/
theorem wae_cases (o : Oracle) (st : FS) (domain conf : String) :
    write_and_enable o st domain conf =
      (if (((removeEnabledEntry (postWrite st domain conf) (confName domain)).enabled
            (confName domain)).isNone && (o.relOk || o.absOk)) || o.lnOk then
        if o.testOk then
          if o.reloadOk then
            (AResult.ok, linkedState (removeEnabledEntry (postWrite st domain conf)
              (confName domain)) (confName domain))
          else
            (AResult.reloadFailed, linkedState (removeEnabledEntry
              (postWrite st domain conf) (confName domain)) (confName domain))
        else
          (AResult.validationFailed, rolledBackState (removeEnabledEntry
            (postWrite st domain conf) (confName domain)) (confName domain))
      else
        (AResult.lnFailed, lnFailedState (removeEnabledEntry
          (postWrite st domain conf) (confName domain)) (confName domain))) := by
  have hA3 : (removeEnabledEntry (postWrite st domain conf) (confName domain)).avail
      (confName domain) = some (conf ++ "\n") := by
    rw [removeEnabledEntry_avail, postWrite_avail_at]
  simp only [write_and_enable]
  cases he : ((removeEnabledEntry (postWrite st domain conf)
      (confName domain)).enabled (confName domain)).isNone <;>
    cases hrel : o.relOk <;> cases habs : o.absOk <;> cases hln : o.lnOk <;>
      simp [tryCreateLink, unlinkDestIfE, enabledExists, targetExists,
        linkedState, rolledBackState, lnFailedState, hA3, he, hrel, habs, hln,
        upd_same, upd_upd_same]

/-- C1: if external syntax validation fails during activation of a domain
with no prior installed state, then after the call neither the available
artifact nor the enabled reference exists for that domain, and the call
reports failure (this holds on every path, including the one where link
creation itself already failed and validation was never reached). -/
theorem activation_validation_rollback (o : Oracle) (st : FS) (domain conf : String)
    (_hA : st.avail (confName domain) = none)
    (hE : st.enabled (confName domain) = none)
    (hT : o.testOk = false) :
    (write_and_enable o st domain conf).1 ≠ AResult.ok ∧
    (write_and_enable o st domain conf).2.avail (confName domain) = none ∧
    (write_and_enable o st domain conf).2.enabled (confName domain) = none := by
  have hE3 : (removeEnabledEntry (postWrite st domain conf)
      (confName domain)).enabled (confName domain) = none := by
    simp [removeEnabledEntry, enabledExists, postWrite, hE]
  rw [wae_cases]
  cases hrel : o.relOk <;> cases habs : o.absOk <;> cases hln : o.lnOk <;>
    simp [hE3, hT, hrel, habs, hln, rolledBackState, lnFailedState, upd_same]

/-- Closed instance of `activation_validation_rollback`: activating
`example.com` on an empty filesystem with failing validation leaves
neither artifact nor reference and reports failure. -/
theorem activation_validation_rollback_witness :
    (write_and_enable noTestOk stEmpty "example.com" "server x").1 ≠ AResult.ok ∧
    (write_and_enable noTestOk stEmpty "example.com" "server x").2.avail
      (confName "example.com") = none ∧
    (write_and_enable noTestOk stEmpty "example.com" "server x").2.enabled
      (confName "example.com") = none :=
  activation_validation_rollback noTestOk stEmpty "example.com" "server x"
    (by decide) (by decide) (by decide)

/-- C3: if a run of `write_and_enable` reports `reloadFailed` (validation
succeeded, the external reload failed), no rollback happens — the
available artifact still holds the just-written text and the enabled
reference is a symlink resolving to it. -/
theorem reload_failure_no_rollback (o : Oracle) (st : FS) (domain conf : String)
    (h : (write_and_enable o st domain conf).1 = AResult.reloadFailed) :
    (write_and_enable o st domain conf).2.avail (confName domain) =
      some (conf ++ "\n") ∧
    (write_and_enable o st domain conf).2.enabled (confName domain) =
      some (Entry.symlink (LinkTarget.toAvail (confName domain))) ∧
    enabledExists (write_and_enable o st domain conf).2 (confName domain) = true := by
  have hA3 : (removeEnabledEntry (postWrite st domain conf) (confName domain)).avail
      (confName domain) = some (conf ++ "\n") := by
    rw [removeEnabledEntry_avail, postWrite_avail_at]
  rw [wae_cases] at h ⊢
  by_cases hc : ((((removeEnabledEntry (postWrite st domain conf)
      (confName domain)).enabled (confName domain)).isNone &&
        (o.relOk || o.absOk)) || o.lnOk) = true
  · cases hTe : o.testOk with
    | false => simp [hc, hTe] at h
    | true =>
      cases hRe : o.reloadOk with
      | true => simp [hc, hTe, hRe] at h
      | false =>
        simp only [hc, hTe, hRe, if_true, Bool.false_eq_true, if_false]
        refine ⟨?_, ?_, ?_⟩
        · simp [linkedState, hA3]
        · simp [linkedState, upd_same]
        · simp [enabledExists, targetExists, linkedState, upd_same, hA3]
  · simp only [Bool.not_eq_true] at hc
    simp [hc] at h

/-- Closed instance of `reload_failure_no_rollback` at a concrete run in
which the reload fails. -/
theorem reload_failure_no_rollback_witness :
    (write_and_enable noReloadOk stEmpty "example.com" "server x").2.avail
      (confName "example.com") = some ("server x" ++ "\n") ∧
    (write_and_enable noReloadOk stEmpty "example.com" "server x").2.enabled
      (confName "example.com") =
      some (Entry.symlink (LinkTarget.toAvail (confName "example.com"))) ∧
    enabledExists (write_and_enable noReloadOk stEmpty "example.com" "server x").2
      (confName "example.com") = true :=
  reload_failure_no_rollback noReloadOk stEmpty "example.com" "server x" (by decide)

/-- C2: the claim is the code's own intent (lines 178–182 of
`delete_config` print "Removed broken symlink"), but that branch is
unreachable — `Path.exists()` follows symlinks, so a broken enabled
reference is never unlinked.  Evaluating the model at the failing input:
deleting a domain whose enabled reference is a broken symlink (and whose
available artifact exists) returns success, yet the broken enabled
reference is still present afterwards (the entry exists at the link level
but its target does not). -/
theorem delete_config_leaves_broken_reference :
    (delete_config allOk stBroken "app").1 = DResult.ok ∧
    (delete_config allOk stBroken "app").2.enabled "app.conf" =
      some (Entry.symlink (LinkTarget.external false)) ∧
    enabledExists (delete_config allOk stBroken "app").2 "app.conf" = false :=
  ⟨by decide, by decide, by decide⟩

theorem FS.ext' (a b : FS) (h1 : a.avail = b.avail) (h2 : a.enabled = b.enabled)
    (h3 : a.logdirs = b.logdirs) : a = b := by
  cases a
  cases b
  rw [FS.mk.injEq]
  exact ⟨h1, h2, h3⟩

theorem updB_same (f : String → Bool) (k : String) : updB f k k = true := by
  simp [updB]

theorem removeEnabledEntry_of_enabled_none (st : FS) (n : String)
    (h : st.enabled n = none) : removeEnabledEntry st n = st := by
  unfold removeEnabledEntry
  simp [enabledExists, h]

theorem removeEnabledEntry_result (st : FS) (n : String) :
    (removeEnabledEntry st n).enabled n = none ∨ removeEnabledEntry st n = st := by
  unfold removeEnabledEntry
  by_cases h : enabledExists st n = true
  · rcases hE : st.enabled n with _ | entry
    · exact absurd h (by simp [enabledExists, hE])
    · cases entry with
      | regular c => left; simp [h, hE, upd_same]
      | symlink t => left; simp [h, hE, upd_same]
  · right
    rw [Bool.not_eq_true] at h
    simp [h]

theorem removeEnabledEntry_idem (st : FS) (n : String) :
    removeEnabledEntry (removeEnabledEntry st n) n = removeEnabledEntry st n := by
  rcases removeEnabledEntry_result st n with h | h
  · exact removeEnabledEntry_of_enabled_none _ _ h
  · rw [h]
    exact h

theorem wae_second_linked (o : Oracle) (T : FS) (domain conf : String)
    (hA : T.avail (confName domain) = some (conf ++ "\n"))
    (hL : T.logdirs (sanitize_domain domain) = true)
    (hcnd : (o.relOk || o.absOk) = true ∨ o.lnOk = true)
    (hT : o.testOk = true) (hR : o.reloadOk = true) :
    (write_and_enable o (linkedState T (confName domain)) domain conf).2 =
      linkedState T (confName domain) := by
  rw [wae_cases]
  have hP : postWrite (linkedState T (confName domain)) domain conf =
      linkedState T (confName domain) := by
    apply FS.ext'
    · simp only [postWrite]
      apply upd_eq_self
      simpa [linkedState] using hA
    · rfl
    · simp only [postWrite]
      apply updB_eq_self
      simpa [linkedState] using hL
  rw [hP]
  have h1 : (linkedState T (confName domain)).enabled (confName domain) =
      some (Entry.symlink (LinkTarget.toAvail (confName domain))) := by
    simp [linkedState, upd_same]
  have h2 : enabledExists (linkedState T (confName domain)) (confName domain) = true := by
    simp [enabledExists, targetExists, linkedState, upd_same, hA]
  have hRm : removeEnabledEntry (linkedState T (confName domain)) (confName domain) =
      { T with enabled := upd T.enabled (confName domain) none } := by
    unfold removeEnabledEntry
    rw [h2, h1]
    simp [linkedState, upd_upd_same]
  rw [hRm]
  have hcond : (((({ T with enabled := upd T.enabled (confName domain) none } : FS).enabled
      (confName domain)).isNone && (o.relOk || o.absOk)) || o.lnOk) = true := by
    rcases hcnd with h | h <;> simp [upd_same, h]
  simp only [hcond, hT, hR, if_true]
  apply FS.ext'
  · rfl
  · simp [linkedState, upd_upd_same]
  · rfl

theorem wae_second_failed (o : Oracle) (T : FS) (domain conf : String)
    (hA : T.avail (confName domain) = some (conf ++ "\n"))
    (hL : T.logdirs (sanitize_domain domain) = true)
    (hIdem : removeEnabledEntry T (confName domain) = T)
    (hc : (((T.enabled (confName domain)).isNone &&
      (o.relOk || o.absOk)) || o.lnOk) = false) :
    (write_and_enable o (lnFailedState T (confName domain)) domain conf).2 =
      lnFailedState T (confName domain) := by
  rw [wae_cases]
  have hP : postWrite (lnFailedState T (confName domain)) domain conf = T := by
    apply FS.ext'
    · simp only [postWrite, lnFailedState]
      rw [upd_upd_same]
      exact upd_eq_self _ _ _ hA
    · rfl
    · simp only [postWrite, lnFailedState]
      exact updB_eq_self _ _ hL
  rw [hP, hIdem]
  simp only [hc, Bool.false_eq_true, if_false]

/-- C8: with external validation and reload always succeeding, running
`write_and_enable` twice with the same domain and text leaves the whole
filesystem in exactly the state of a single run — for every starting
state and every outcome of the three symlink-creation methods, including
runs in which all of them fail. -/
theorem activation_idempotent (o : Oracle) (st : FS) (domain conf : String)
    (hT : o.testOk = true) (hR : o.reloadOk = true) :
    (write_and_enable o (write_and_enable o st domain conf).2 domain conf).2 =
      (write_and_enable o st domain conf).2 := by
  have hA3 : (removeEnabledEntry (postWrite st domain conf) (confName domain)).avail
      (confName domain) = some (conf ++ "\n") := by
    rw [removeEnabledEntry_avail, postWrite_avail_at]
  have hL3 : (removeEnabledEntry (postWrite st domain conf) (confName domain)).logdirs
      (sanitize_domain domain) = true := by
    rw [removeEnabledEntry_logdirs]
    simp [postWrite, updB_same]
  rw [wae_cases o st domain conf]
  by_cases hc : ((((removeEnabledEntry (postWrite st domain conf)
      (confName domain)).enabled (confName domain)).isNone &&
        (o.relOk || o.absOk)) || o.lnOk) = true
  · simp only [hc, hT, hR, if_true]
    refine wae_second_linked o _ domain conf hA3 hL3 ?_ hT hR
    cases hln : o.lnOk
    · left
      rw [hln, Bool.or_false, Bool.and_eq_true] at hc
      exact hc.2
    · right
      rfl
  · rw [Bool.not_eq_true] at hc
    simp only [hc, Bool.false_eq_true, if_false]
    exact wae_second_failed o _ domain conf hA3 hL3 (removeEnabledEntry_idem _ _) hc

/-- Closed instance of `activation_idempotent` on a concrete state. -/
theorem activation_idempotent_witness :
    (write_and_enable allOk (write_and_enable allOk stEmpty "example.com" "server x").2
      "example.com" "server x").2 =
      (write_and_enable allOk stEmpty "example.com" "server x").2 :=
  activation_idempotent allOk stEmpty "example.com" "server x" (by decide) (by decide)

/-- C9: listing is total — one summary per file, never failing the whole
listing — and a file in which the `server_name` (resp. `listen`) pattern
has no match yields the `"-"` placeholder for the domain (resp. port)
field; the mode and TLS fields are likewise always produced, from plain
substring tests. -/
theorem registry_robust (files : List (String × String)) :
    (list_configs files).length = files.length ∧
    ∀ nc ∈ files, summarize nc.1 nc.2 ∈ list_configs files ∧
      (findServerName nc.2.data = none → (summarize nc.1 nc.2).domain = "-") ∧
      (findListen nc.2.data = none → (summarize nc.1 nc.2).port = "-") := by
  refine ⟨by simp [list_configs], ?_⟩
  intro nc hm
  refine ⟨List.mem_map.mpr ⟨nc, hm, rfl⟩, ?_, ?_⟩
  · intro h
    simp [summarize, h]
  · intro h
    simp [summarize, h]

/-- Closed instance of `registry_robust` on a malformed artifact. -/
theorem registry_robust_witness :
    (list_configs [("broken.conf", "server name example com")]).length = 1 ∧
    (summarize "broken.conf" "server name example com").domain = "-" ∧
    (summarize "broken.conf" "server name example com").port = "-" := by
  have h := registry_robust [("broken.conf", "server name example com")]
  have h2 := (h.2 ("broken.conf", "server name example com") (by simp)).2
  exact ⟨h.1, h2.1 (by decide), h2.2 (by decide)⟩
